import Mathlib

/-!
Verification of the MCCAS script-building pipeline (src/backend/script/script_builder.py
and the schema modules under src/backend) against its natural-language specification.

The Python source is shallowly embedded: pydantic models become structures, Python ints
become Int, attribute access on pydantic models goes through an explicit accessor that
fails on undeclared attributes (as Python raises AttributeError), the in-place mutation
of the section-plan list in `_normalize_lengths` becomes functional updates of the last
and second-to-last elements, and the unbounded `while` loop becomes fuel-indexed
recursion `spillLoop` returning `none` when the fuel runs out while the loop condition
still holds (so `∀ fuel, … = none` expresses non-termination of the source loop).
-/

namespace MCCAS

/-! ### Data model (src/backend/schemas and src/backend/script/schemas) -/

/-- Embeds `Character` (src/backend/schemas/character.py): a pydantic model with the
single field `m_name`. -/
structure Character where
  m_name : String
deriving DecidableEq

/-- Python attribute access on a `Character` value: pydantic models expose exactly their
declared fields; any other attribute raises AttributeError. `Character` declares only
`m_name`, so `c.name` (as written in `_draft_sections` line 154 and `_make_voice_lines`
line 200) fails. -/
def Character.getAttr (c : Character) (attr : String) : Except String String :=
  if attr = "m_name" then Except.ok c.m_name
  else Except.error "AttributeError: Character object has no attribute"

/-- Embeds the `PresentationStyle` str-enum (src/backend/schemas/presentation_style.py). -/
inductive PresentationStyle where
  | NARRATIVE
  | EXPLANATORY
  | LISTICLE
  | DEBATE
  | INTERVIEW
  | NEWS
deriving DecidableEq

/-- The string value of each `PresentationStyle` member, as declared in the source enum. -/
def styleValue : PresentationStyle → String
  | PresentationStyle.NARRATIVE => "narrative"
  | PresentationStyle.EXPLANATORY => "explanatory"
  | PresentationStyle.LISTICLE => "listicle"
  | PresentationStyle.DEBATE => "debate"
  | PresentationStyle.INTERVIEW => "interview"
  | PresentationStyle.NEWS => "news"

/-- Embeds `SectionPlan` (src/backend/script/schemas/script_section.py): the transient
plan record produced by the planning generation pass. Lengths are Python ints; the
pydantic declaration is `conint(ge=1)`, a constraint stated as a hypothesis where a
claim needs it (the spec treats lengths as `positive integers expected but not
guaranteed`, and `_normalize_lengths` itself defends against zero sums). -/
structure SectionPlan where
  index : Int
  length_s : Int
  title : String
  talking_points : List String
  presentation_style : String
  web_search : Bool
deriving DecidableEq

/-- Embeds `ScriptSectionInfo` (src/backend/script/schemas/script_section_info.py). -/
structure ScriptSectionInfo where
  m_web_search : Bool
  m_index : Int
  m_length_s : Int
  m_character_participants : List Character
  m_title : String
  m_talking_points : List String
  m_presentation_style : PresentationStyle
deriving DecidableEq

/-- Embeds `VoiceLine` (src/backend/script/schemas/voice_line.py): required fields
`m_character` and `m_text`, both with `min_length=1`. -/
structure VoiceLine where
  m_character : String
  m_text : String
deriving DecidableEq

/-- Modelled from the spec: the draft line type (`Line`) consumed by
`_make_voice_lines` is referenced in src/backend/script/script_builder.py but its class
is not under src/; per spec section 4.3 a draft line is `an optional speaker-name string
plus spoken text`, and the source reads `ln.voice_actor` and `ln.text`. -/
structure Line where
  voice_actor : Option String
  text : String
deriving DecidableEq

/-- Modelled from the spec: the per-section draft record (`SectionDraft`) returned by the
drafting generation pass is referenced in `_draft_sections` but its class is not under
src/; the source reads `d.m_index`, `d.m_script_text` and `d.lines` (possibly None). -/
structure SectionDraft where
  m_index : Int
  m_script_text : String
  lines : Option (List Line)
deriving DecidableEq

/-- The mutable state of one `ScriptSection` object as `_draft_sections` and
`_make_voice_lines` see it: the flat narration text `m_script_text`, the transient
`_draft_lines` buffer stashed by `_draft_sections` (absent modelled as `[]`, matching
`getattr(s, "_draft_lines", []) or []`), and the final `voice_lines` list. -/
structure PySection where
  m_script_text : String
  draft_lines : List Line
  voice_lines : List VoiceLine
deriving DecidableEq

/-! ### List helpers for the in-place mutations of `_normalize_lengths`

The Python function mutates `plans[-1]` and `plans[-2]`; `updateLast` and
`updatePenult` are the functional counterparts, and `lastLen` reads
`plans[-1].length_s`. -/

/-- Apply `f` to the last element of the list (`plans[-1] = f(plans[-1])`). -/
def updateLast (f : SectionPlan → SectionPlan) : List SectionPlan → List SectionPlan
  | [] => []
  | [p] => [f p]
  | p :: q :: t => p :: updateLast f (q :: t)

/-- Apply `f` to the second-to-last element of the list (`plans[-2] = f(plans[-2])`). -/
def updatePenult (f : SectionPlan → SectionPlan) : List SectionPlan → List SectionPlan
  | [] => []
  | [p] => [p]
  | [p, q] => [f p, q]
  | p :: q :: r :: t => p :: updatePenult f (q :: r :: t)

/-- The length of the last element (`plans[-1].length_s`; 0 for an empty list, which
the source never reaches because the loop requires `len(plans) > 1`). -/
def lastLen : List SectionPlan → Int
  | [] => 0
  | [p] => p.length_s
  | _ :: q :: t => lastLen (q :: t)

/-- Running total `sum(p.length_s for p in plans)`. -/
def sumLen : List SectionPlan → Int
  | [] => 0
  | p :: t => p.length_s + sumLen t

/-- Reindexing loop `for i, p in enumerate(plans, start=1): p.index = i`, generalised
over the starting index. -/
def reindexFrom (i : Int) : List SectionPlan → List SectionPlan
  | [] => []
  | p :: t => { p with index := i } :: reindexFrom (i + 1) t

/-- The list of indices `i, i+1, …` of length `n` (so `idxFrom 1 n` is `1..n`). -/
def idxFrom (i : Int) : Nat → List Int
  | 0 => []
  | Nat.succ n => i :: idxFrom (i + 1) n

/-! ### `_normalize_lengths` (script_builder.py lines 290-313) -/

/-- The initial correction `plans[-1].length_s = max(1, plans[-1].length_s + diff)`
with `diff = total - sum(...)` (lines 300-302). -/
def applyDiff (plans : List SectionPlan) (total : Int) : List SectionPlan :=
  updateLast (fun p => { p with length_s := max 1 (p.length_s + (total - sumLen plans)) }) plans

/-- The `while` condition `sum(p.length_s for p in plans) > total and len(plans) > 1`
(line 304). -/
def spillCond (total : Int) (ps : List SectionPlan) : Bool :=
  decide (total < sumLen ps) && decide (1 < ps.length)

/-- One iteration of the overflow-spill loop (lines 305-309): pull the overflow out of
the last section down to a 1-second floor, then, when something remains and the list has
more than two sections, spill it onto the second-to-last section, also floored at 1. -/
def spillStep (total : Int) (ps : List SectionPlan) : List SectionPlan :=
  let overflow := sumLen ps - total
  let tk := min overflow (lastLen ps - 1)
  let ps1 := updateLast (fun p => { p with length_s := p.length_s - tk }) ps
  if tk < overflow ∧ 2 < ps.length then
    updatePenult (fun p => { p with length_s := max 1 (p.length_s - (overflow - tk)) }) ps1
  else ps1

/-- Fuel-indexed unfolding of the source's unbounded `while` loop; `none` means the
fuel was exhausted while the loop condition still held, so `∀ fuel, spillLoop … = none`
states that the Python loop never terminates from that state. -/
def spillLoop (total : Int) : Nat → List SectionPlan → Option (List SectionPlan)
  | 0, ps => if spillCond total ps then none else some ps
  | Nat.succ fuel, ps =>
    if spillCond total ps then spillLoop total fuel (spillStep total ps) else some ps

/-- Embeds `_normalize_lengths(plans, total)`: empty input is returned unchanged; an
all-zero-sum input collapses to a single full-length "Main" section; otherwise the last
section absorbs the difference, the spill loop runs, and indices are reassigned 1..N. -/
def normalizeLengths (fuel : Nat) (plans : List SectionPlan) (total : Int) :
    Option (List SectionPlan) :=
  if plans = [] then some plans
  else if sumLen plans = 0 then
    some [{ index := 1, length_s := total, title := "Main", talking_points := [],
            presentation_style := "explanatory", web_search := false }]
  else
    (spillLoop total fuel (applyDiff plans total)).map (reindexFrom 1)

/-! ### `_refine_styles_with_ai` alignment and `_plan_sections` post-processing -/

/-- The deterministic tail of `_refine_styles_with_ai` (lines 285-288): the styles the
generation pass returned are padded with EXPLANATORY or truncated when their length does
not match the section count. -/
def alignStyles (styles : List PresentationStyle) (n : Nat) : List PresentationStyle :=
  if styles.length = n then styles
  else (styles ++ List.replicate n PresentationStyle.EXPLANATORY).take n

/-- The deterministic post-processing of `_plan_sections` (lines 119-137): the plan and
the refined styles returned by the two generation calls are parameters; the plan lengths
are normalized, the styles aligned, and the pairs zipped into `ScriptSectionInfo`
records carrying the full cast. -/
def planSections (fuel : Nat) (aiPlan : List SectionPlan) (aiStyles : List PresentationStyle)
    (total : Int) (cast : List Character) : Option (List ScriptSectionInfo) :=
  (normalizeLengths fuel aiPlan total).map (fun fixed =>
    (fixed.zip (alignStyles aiStyles fixed.length)).map (fun q =>
      { m_web_search := q.1.web_search
        m_index := q.1.index
        m_length_s := q.1.length_s
        m_character_participants := cast
        m_title := q.1.title
        m_talking_points := q.1.talking_points
        m_presentation_style := q.2 }))

/-! ### Style resolution (spec section 4.2, first tier) -/

/-- Modelled from the spec: the per-section style coercion ("first tier" of spec
section 4.2) is described by the spec but absent from src/ — `_plan_sections` only
forwards the allow-list strings into the planning prompt (lines 82-83). Per the spec:
with an allow-list present, case-insensitively exact-match the hint against it and
return the matching member, else the allow-list's first entry; with no allow-list, the
enum default EXPLANATORY. An empty allow-list counts as absent, matching the source's
falsy treatment `i_req.m_preferred_styles or []`. -/
def resolveStyle (hint : String) (allow : Option (List PresentationStyle)) :
    PresentationStyle :=
  match allow with
  | some (s :: rest) =>
    ((s :: rest).find? (fun st => decide ((styleValue st).toLower = hint.toLower))).getD s
  | _ => PresentationStyle.EXPLANATORY

/-! ### Voice-line assembly (`_make_voice_lines`, lines 198-235) -/

/-- Effectful `map` over a list in the `Except` monad, stopping at the first failure —
the behaviour of a Python `for` loop whose body may raise. -/
def exMapM {α β : Type} (f : α → Except String β) : List α → Except String (List β)
  | [] => Except.ok []
  | a :: l => do
    let b ← f a
    let bs ← exMapM f l
    Except.ok (b :: bs)

/-- The speaker list `[c.name for c in req.m_characters]` built by `_draft_sections`
(line 154). `Character` declares `m_name`, not `name`, so any non-empty cast raises. -/
def speakerNames (cast : List Character) : Except String (List String) :=
  exMapM (fun c => c.getAttr "name") cast

/-- The map `by_name = (c.name: c for c in req.m_characters)` built by
`_make_voice_lines` (line 200), as an association list. -/
def buildByName (cast : List Character) : Except String (List (String × Character)) :=
  exMapM (fun c => (c.getAttr "name").map (fun n => (n, c))) cast

/-- The pydantic `VoiceLine` constructor applied to keyword arguments. The model
requires `m_character` and `m_text` (both `min_length=1`); a call that supplies neither
— such as the source's `VoiceLine(voice_actor=..., text=...)` — fails validation. -/
inductive PyVal where
  | str (s : String)
  | int (n : Int)
  | bool (b : Bool)
  | chr (c : Character)
  | chars (cs : List Character)
  | styles (ss : List PresentationStyle)
  | pynone
deriving DecidableEq

/-- Construct a `VoiceLine` from keyword arguments, modelling pydantic validation of the
declared fields `m_character` and `m_text`. -/
def mkVoiceLine (kwargs : List (String × PyVal)) : Except String VoiceLine :=
  match kwargs.lookup "m_character", kwargs.lookup "m_text" with
  | some (PyVal.str c), some (PyVal.str t) =>
    if 1 ≤ c.length ∧ 1 ≤ t.length then Except.ok { m_character := c, m_text := t }
    else Except.error "ValidationError: min_length"
  | _, _ => Except.error "ValidationError: missing required fields m_character and m_text"

/-- Python `str.strip()`: drop leading and trailing whitespace, implemented over the
character list so that concrete inputs evaluate inside the kernel. -/
def pyStrip (s : String) : String :=
  String.mk (((s.data.dropWhile Char.isWhitespace).reverse.dropWhile
    Char.isWhitespace).reverse)

/-- Python `str.split(sep)` for a one-character separator, over the character list:
`"abc.".split(".")` gives `["abc", ""]` and `"".split(".")` gives `[""]`. -/
def splitOnChar (c : Char) : List Char → List (List Char)
  | [] => [[]]
  | a :: t =>
    match splitOnChar c t with
    | [] => [[]]
    | h :: r => if a = c then [] :: h :: r else (a :: h) :: r

/-- Speaker resolution for one draft line (lines 209-214): exact match of the stripped
speaker name in `by_name`, else the sole cast member when there is one, else the first
cast member; `req.m_characters[0]` on an empty cast raises IndexError. -/
def resolveActor (byName : List (String × Character)) (sl : Option Character)
    (cast : List Character) (ln : Line) : Except String Character :=
  match byName.lookup (pyStrip (ln.voice_actor.getD "")) with
  | some a => Except.ok a
  | none =>
    match sl with
    | some a => Except.ok a
    | none =>
      match cast.head? with
      | some a => Except.ok a
      | none => Except.error "IndexError: list index out of range"

/-- The sentence splitting of line 222: split the narration on periods, strip each
segment, keep the non-empty ones; when nothing remains the whole narration is the single
segment (lines 223-224). -/
def splitSentences (text : String) : List String :=
  let segs := ((splitOnChar '.' text.data).map (fun cs => pyStrip (String.mk cs))).filter
    (fun z => decide (z ≠ ""))
  if segs = [] then [text] else segs

/-- Re-suffix a segment with a period when missing (line 228); Python
`sent.endswith(".")` checks the last character. -/
def addDot (s : String) : String :=
  if s.data.getLast? = some '.' then s else s ++ "."

/-- The round-robin loop of lines 225-229, generalised over the running counter `i`:
segment `i` is assigned to `req.m_characters[i % len(req.m_characters)]`. -/
def roundRobinFrom (cast : List Character) : Nat → List String → List (Character × String)
  | _, [] => []
  | i, sent :: rest =>
    (cast.getD (i % cast.length) { m_name := "" }, addDot sent)
      :: roundRobinFrom cast (i + 1) rest

/-- The multi-speaker no-annotation fallback: sentences of the narration are assigned
round-robin to the cast in order. -/
def roundRobinPairs (cast : List Character) (text : String) : List (Character × String) :=
  roundRobinFrom cast 0 (splitSentences text)

/-- The (speaker, text) argument pairs `_make_voice_lines` passes to the `VoiceLine`
constructor for one section, following the source's branches: draft lines present →
per-line speaker resolution; no drafts and a sole speaker → one line holding the whole
narration; no drafts and several speakers → round-robin over split sentences (`i % 0`
on an empty cast raises ZeroDivisionError). -/
def sectionPairs (cast : List Character) (byName : List (String × Character))
    (sl : Option Character) (s : PySection) : Except String (List (Character × String)) :=
  if s.draft_lines ≠ [] then
    exMapM (fun ln => (resolveActor byName sl cast ln).map (fun a => (a, ln.text)))
      s.draft_lines
  else
    match sl with
    | some sc => Except.ok [(sc, s.m_script_text)]
    | none =>
      if cast.length = 0 then
        Except.error "ZeroDivisionError: integer division or modulo by zero"
      else Except.ok (roundRobinPairs cast s.m_script_text)

/-- Build the final `VoiceLine` list for one section: each computed (speaker, text) pair
goes through the constructor call `VoiceLine(voice_actor=actor, text=text)` of
lines 215, 219 and 227. -/
def assembleSection (cast : List Character) (byName : List (String × Character))
    (sl : Option Character) (s : PySection) : Except String (List VoiceLine) := do
  let pairs ← sectionPairs cast byName sl s
  exMapM (fun pr => mkVoiceLine [("voice_actor", PyVal.chr pr.1), ("text", PyVal.str pr.2)])
    pairs

/-- Embeds `_make_voice_lines(req, sections)` (lines 198-235): build `by_name`, compute
the sole speaker, then per section attach the assembled voice lines and drop the
transient `_draft_lines` buffer. -/
def makeVoiceLines (cast : List Character) (sections : List PySection) :
    Except String (List PySection) := do
  let byName ← buildByName cast
  let sl : Option Character := if cast.length = 1 then cast.head? else none
  exMapM (fun s => (assembleSection cast byName sl s).map
    (fun vls => { s with voice_lines := vls, draft_lines := [] })) sections

/-- The per-section assignment of `_draft_sections` (lines 188-193): the generator's
draft overwrites `m_script_text` and its lines (or `[]` when None) are stashed in the
transient `_draft_lines` buffer. -/
def applyDraft (s : PySection) (d : SectionDraft) : PySection :=
  { s with m_script_text := d.m_script_text, draft_lines := d.lines.getD [] }

/-- The space-joined concatenation of a list of texts, the derivation the spec asserts
for a section's flat narration text. -/
def joinTexts : List String → String
  | [] => ""
  | [t] => t
  | t :: u :: r => t ++ " " ++ joinTexts (u :: r)

/-! ### `BuildRequest` (src/backend/script/schemas/build_script_request.py) -/

/-- Embeds the declared fields of `BuildRequest`. -/
structure BuildRequest where
  m_channel_name : String
  m_idea : String
  m_description : String
  m_niche : String
  m_tone : String
  m_platform : String
  m_desired_num_of_sections : Int
  m_web_search : Bool
  m_characters : List Character
  m_desired_length_s : Int
  m_language : String
  m_preferred_styles : Option (List PresentationStyle)
  m_audience : String
deriving DecidableEq

/-- The declared field names of `BuildRequest`, in source order. -/
def buildRequestFieldNames : List String :=
  ["m_channel_name", "m_idea", "m_description", "m_niche", "m_tone", "m_platform",
   "m_desired_num_of_sections", "m_web_search", "m_characters", "m_desired_length_s",
   "m_language", "m_preferred_styles", "m_audience"]

/-- The fields named by the model's `field_validator` decorators: the source declares
`@field_validator("actor_names")` on `names_match_count` (lines 22-27). -/
def fieldValidatorTargets : List String := ["actor_names"]

/-- Pydantic v2 checks, while the class body executes, that every `field_validator`
names a declared field; when one does not, it raises PydanticUserError, the class never
comes into existence, and no instance can ever be validated or constructed. -/
def buildRequestClassCheck : Except String Unit :=
  if fieldValidatorTargets.all (fun f => buildRequestFieldNames.contains f) then
    Except.ok ()
  else
    Except.error "PydanticUserError: Decorators defined with incorrect fields: names_match_count"

/-- Typed extraction of a required string keyword argument. -/
def getStr (kw : List (String × PyVal)) (name : String) : Except String String :=
  match kw.lookup name with
  | some (PyVal.str s) => Except.ok s
  | _ => Except.error "ValidationError: missing or ill-typed string field"

/-- Typed extraction of an optional string keyword argument with a default. -/
def getStrD (kw : List (String × PyVal)) (name dflt : String) : Except String String :=
  match kw.lookup name with
  | some (PyVal.str s) => Except.ok s
  | none => Except.ok dflt
  | _ => Except.error "ValidationError: ill-typed string field"

/-- Typed extraction of a required integer keyword argument. -/
def getInt (kw : List (String × PyVal)) (name : String) : Except String Int :=
  match kw.lookup name with
  | some (PyVal.int n) => Except.ok n
  | _ => Except.error "ValidationError: missing or ill-typed int field"

/-- Typed extraction of a required boolean keyword argument. -/
def getBool (kw : List (String × PyVal)) (name : String) : Except String Bool :=
  match kw.lookup name with
  | some (PyVal.bool b) => Except.ok b
  | _ => Except.error "ValidationError: missing or ill-typed bool field"

/-- Typed extraction of a required character-list keyword argument. -/
def getChars (kw : List (String × PyVal)) (name : String) : Except String (List Character) :=
  match kw.lookup name with
  | some (PyVal.chars cs) => Except.ok cs
  | _ => Except.error "ValidationError: missing or ill-typed character list"

/-- Typed extraction of the optional preferred-style list. -/
def getStylesOpt (kw : List (String × PyVal)) (name : String) :
    Except String (Option (List PresentationStyle)) :=
  match kw.lookup name with
  | some (PyVal.styles ss) => Except.ok (some ss)
  | some PyVal.pynone => Except.ok none
  | none => Except.ok none
  | _ => Except.error "ValidationError: ill-typed style list"

/-- Field validation of `BuildRequest` as the declared model would perform it, including
`conint(gt=10)` on `m_desired_length_s` and the defaults for language and audience. -/
def validateBuildRequest (kw : List (String × PyVal)) : Except String BuildRequest := do
  let ch ← getStr kw "m_channel_name"
  let idea ← getStr kw "m_idea"
  let desc ← getStr kw "m_description"
  let niche ← getStr kw "m_niche"
  let tone ← getStr kw "m_tone"
  let platform ← getStr kw "m_platform"
  let nsec ← getInt kw "m_desired_num_of_sections"
  let ws ← getBool kw "m_web_search"
  let chars ← getChars kw "m_characters"
  let len ← getInt kw "m_desired_length_s"
  if len ≤ 10 then
    Except.error "ValidationError: m_desired_length_s must be greater than 10"
  else do
    let lang ← getStrD kw "m_language" "English"
    let styles ← getStylesOpt kw "m_preferred_styles"
    let aud ← getStrD kw "m_audience" "general"
    Except.ok
      { m_channel_name := ch, m_idea := idea, m_description := desc, m_niche := niche,
        m_tone := tone, m_platform := platform, m_desired_num_of_sections := nsec,
        m_web_search := ws, m_characters := chars, m_desired_length_s := len,
        m_language := lang, m_preferred_styles := styles, m_audience := aud }

/-- Constructing a `BuildRequest` value: the class-creation check runs first (it is a
precondition for the class, hence for every construction), then field validation. -/
def mkBuildRequest (kw : List (String × PyVal)) : Except String BuildRequest := do
  let _ ← buildRequestClassCheck
  validateBuildRequest kw

/-! ### Helper lemmas about the list surgery of `_normalize_lengths` -/

theorem length_updateLast (f : SectionPlan → SectionPlan) :
    ∀ ps : List SectionPlan, (updateLast f ps).length = ps.length := by
  intro ps
  induction ps with
  | nil => rfl
  | cons p t ih =>
    cases t with
    | nil => rfl
    | cons q u => simpa [updateLast] using ih

theorem length_updatePenult (f : SectionPlan → SectionPlan) :
    ∀ ps : List SectionPlan, (updatePenult f ps).length = ps.length := by
  intro ps
  induction ps with
  | nil => rfl
  | cons p t ih =>
    cases t with
    | nil => rfl
    | cons q u =>
      cases u with
      | nil => rfl
      | cons r v => simpa [updatePenult] using ih

theorem length_reindexFrom : ∀ (i : Int) (ps : List SectionPlan),
    (reindexFrom i ps).length = ps.length := by
  intro i ps
  induction ps generalizing i with
  | nil => rfl
  | cons p t ih => simpa [reindexFrom] using ih (i + 1)

theorem sumLen_reindexFrom : ∀ (i : Int) (ps : List SectionPlan),
    sumLen (reindexFrom i ps) = sumLen ps := by
  intro i ps
  induction ps generalizing i with
  | nil => rfl
  | cons p t ih => simp [reindexFrom, sumLen, ih (i + 1)]

theorem reindexFrom_map_index : ∀ (i : Int) (ps : List SectionPlan),
    (reindexFrom i ps).map (fun p => p.index) = idxFrom i ps.length := by
  intro i ps
  induction ps generalizing i with
  | nil => rfl
  | cons p t ih => simp [reindexFrom, idxFrom, ih (i + 1)]

theorem reindexFrom_forall {P : SectionPlan → Prop}
    (hP : ∀ (p : SectionPlan) (i : Int), P p → P { p with index := i }) :
    ∀ (i : Int) (ps : List SectionPlan), (∀ p ∈ ps, P p) →
      ∀ q ∈ reindexFrom i ps, P q := by
  intro i ps
  induction ps generalizing i with
  | nil => intro _ q hq; simp [reindexFrom] at hq
  | cons p t ih =>
    intro hall q hq
    rcases (by simpa [reindexFrom] using hq : q = { p with index := i } ∨ q ∈ reindexFrom (i + 1) t) with h | h
    · exact h ▸ hP p i (hall p (by simp))
    · exact ih (i + 1) (fun x hx => hall x (by simp [hx])) q h

theorem sumLen_ge_length : ∀ ps : List SectionPlan,
    (∀ p ∈ ps, 1 ≤ p.length_s) → (ps.length : Int) ≤ sumLen ps := by
  intro ps
  induction ps with
  | nil => intro _; simp [sumLen]
  | cons p t ih =>
    intro hall
    have h1 : 1 ≤ p.length_s := hall p (by simp)
    have h2 := ih (fun x hx => hall x (by simp [hx]))
    simp only [sumLen, List.length_cons]
    push_cast
    omega

theorem sumLen_zero : ∀ ps : List SectionPlan,
    (∀ p ∈ ps, p.length_s = 0) → sumLen ps = 0 := by
  intro ps
  induction ps with
  | nil => intro _; rfl
  | cons p t ih =>
    intro hall
    have h1 : p.length_s = 0 := hall p (by simp)
    have h2 := ih (fun x hx => hall x (by simp [hx]))
    simp [sumLen, h1, h2]

theorem sumLen_updateLast_delta (d : Int) : ∀ ps : List SectionPlan, ps ≠ [] →
    sumLen (updateLast (fun p => { p with length_s := p.length_s - d }) ps)
      = sumLen ps - d := by
  intro ps
  induction ps with
  | nil => intro h; exact absurd rfl h
  | cons p t ih =>
    intro _
    cases t with
    | nil => simp only [updateLast, sumLen]; ring
    | cons q u =>
      have := ih (by simp)
      simp only [updateLast, sumLen] at this ⊢
      omega

theorem sumLen_updateLast_adj_ge (d : Int) : ∀ ps : List SectionPlan, ps ≠ [] →
    sumLen ps + d
      ≤ sumLen (updateLast (fun p => { p with length_s := max 1 (p.length_s + d) }) ps) := by
  intro ps
  induction ps with
  | nil => intro h; exact absurd rfl h
  | cons p t ih =>
    intro _
    cases t with
    | nil =>
      simp only [updateLast, sumLen]
      have := le_max_right 1 (p.length_s + d)
      omega
    | cons q u =>
      have := ih (by simp)
      simp only [updateLast, sumLen] at this ⊢
      omega

theorem updateLast_forall {P : SectionPlan → Prop} (f : SectionPlan → SectionPlan) :
    ∀ ps : List SectionPlan, (∀ p ∈ ps, P p) →
      (∀ p ∈ ps, p.length_s = lastLen ps → P (f p)) →
      ∀ q ∈ updateLast f ps, P q := by
  intro ps
  induction ps with
  | nil => intro _ _ q hq; simp [updateLast] at hq
  | cons p t ih =>
    intro hall hf q hq
    cases t with
    | nil =>
      have hq' : q = f p := by simpa [updateLast] using hq
      exact hq' ▸ hf p (by simp) rfl
    | cons r u =>
      rcases (by simpa [updateLast] using hq : q = p ∨ q ∈ updateLast f (r :: u)) with h | h
      · exact h ▸ hall p (by simp)
      · exact ih (fun x hx => hall x (by simp [hx]))
          (fun x hx hlast => hf x (by simp [hx]) (by simpa [lastLen] using hlast)) q h

theorem updatePenult_forall {P : SectionPlan → Prop} (f : SectionPlan → SectionPlan)
    (hf : ∀ p, P (f p)) :
    ∀ ps : List SectionPlan, (∀ p ∈ ps, P p) → ∀ q ∈ updatePenult f ps, P q := by
  intro ps
  induction ps with
  | nil => intro _ q hq; simp [updatePenult] at hq
  | cons p t ih =>
    intro hall q hq
    cases t with
    | nil =>
      have hq' : q = p := by simpa [updatePenult] using hq
      exact hq' ▸ hall p (by simp)
    | cons r u =>
      cases u with
      | nil =>
        rcases (by simpa [updatePenult] using hq : q = f p ∨ q = r) with h | h
        · exact h ▸ hf p
        · exact h ▸ hall r (by simp)
      | cons v w =>
        rcases (by simpa [updatePenult] using hq :
            q = p ∨ q ∈ updatePenult f (r :: v :: w)) with h | h
        · exact h ▸ hall p (by simp)
        · exact ih (fun x hx => hall x (by simp [hx])) q h

theorem sumLen_updatePenult_ge (d : Int) (hd : 0 ≤ d)
    (f : SectionPlan → SectionPlan) (hf : ∀ p, p.length_s - d ≤ (f p).length_s) :
    ∀ ps : List SectionPlan, sumLen ps - d ≤ sumLen (updatePenult f ps) := by
  intro ps
  induction ps with
  | nil => simp [updatePenult, sumLen]; omega
  | cons p t ih =>
    cases t with
    | nil => simp [updatePenult, sumLen]; omega
    | cons r u =>
      cases u with
      | nil =>
        have := hf p
        simp only [updatePenult, sumLen] at *
        omega
      | cons v w =>
        simp only [updatePenult, sumLen] at ih ⊢
        omega

theorem lastLen_mem : ∀ ps : List SectionPlan, ps ≠ [] →
    ∃ p ∈ ps, lastLen ps = p.length_s := by
  intro ps
  induction ps with
  | nil => intro h; exact absurd rfl h
  | cons p t ih =>
    intro _
    cases t with
    | nil => exact ⟨p, by simp, rfl⟩
    | cons q u =>
      obtain ⟨r, hr, hlen⟩ := ih (by simp)
      exact ⟨r, by simp [hr], by simpa [lastLen] using hlen⟩

theorem spillStep_inv (total : Int) (ps : List SectionPlan) (h2 : 1 < ps.length)
    (hge : ∀ p ∈ ps, 1 ≤ p.length_s) (_hsum : total < sumLen ps) :
    (spillStep total ps).length = ps.length ∧
    (∀ q ∈ spillStep total ps, 1 ≤ q.length_s) ∧
    total ≤ sumLen (spillStep total ps) := by
  have hne : ps ≠ [] := by
    intro h
    rw [h] at h2
    simp at h2
  obtain ⟨pl, hpl, hplen⟩ := lastLen_mem ps hne
  have hlast1 : 1 ≤ lastLen ps := hplen ▸ hge pl hpl
  simp only [spillStep]
  set ov := sumLen ps - total with hov
  set tk := min ov (lastLen ps - 1) with htkdef
  set ps1 := updateLast (fun p => { p with length_s := p.length_s - tk }) ps with hps1
  have htk_le_ov : tk ≤ ov := min_le_left _ _
  have htk_le : tk ≤ lastLen ps - 1 := min_le_right _ _
  have hlen1 : ps1.length = ps.length := length_updateLast _ ps
  have hsum1 : sumLen ps1 = sumLen ps - tk := sumLen_updateLast_delta tk ps hne
  have hge1 : ∀ q ∈ ps1, 1 ≤ q.length_s := by
    apply updateLast_forall _ ps hge
    intro p _ hp
    show 1 ≤ p.length_s - tk
    omega
  split
  next hcond =>
    refine ⟨?_, ?_, ?_⟩
    · rw [length_updatePenult, hlen1]
    · apply updatePenult_forall _ ?_ ps1 hge1
      intro p
      show 1 ≤ max 1 (p.length_s - (ov - tk))
      exact le_max_left _ _
    · have hbound := sumLen_updatePenult_ge (ov - tk) (by omega)
        (fun p => { p with length_s := max 1 (p.length_s - (ov - tk)) })
        (fun p => le_max_right _ _) ps1
      omega
  next hcond =>
    exact ⟨hlen1, hge1, by omega⟩

theorem spillLoop_some_inv (total : Int) : ∀ (fuel : Nat) (ps r : List SectionPlan),
    (∀ p ∈ ps, 1 ≤ p.length_s) → total ≤ sumLen ps →
    spillLoop total fuel ps = some r →
    r.length = ps.length ∧ (∀ p ∈ r, 1 ≤ p.length_s) ∧ total ≤ sumLen r ∧
      spillCond total r = false := by
  intro fuel
  induction fuel with
  | zero =>
    intro ps r hge hsum h
    simp only [spillLoop] at h
    by_cases hc : spillCond total ps = true
    · rw [if_pos hc] at h
      exact Option.noConfusion h
    · rw [if_neg hc] at h
      injection h with h
      subst h
      exact ⟨rfl, hge, hsum, Bool.eq_false_iff.mpr hc⟩
  | succ n ih =>
    intro ps r hge hsum h
    simp only [spillLoop] at h
    by_cases hc : spillCond total ps = true
    · rw [if_pos hc] at h
      have hc2 : total < sumLen ps ∧ 1 < ps.length := by
        simpa [spillCond] using hc
      obtain ⟨hl, hg, hs⟩ := spillStep_inv total ps hc2.2 hge hc2.1
      obtain ⟨ihl, ihg, ihs, ihc⟩ := ih (spillStep total ps) r hg hs h
      exact ⟨ihl.trans hl, ihg, ihs, ihc⟩
    · rw [if_neg hc] at h
      injection h with h
      subst h
      exact ⟨rfl, hge, hsum, Bool.eq_false_iff.mpr hc⟩

theorem spillLoop_exit (total : Int) (ps : List SectionPlan)
    (hc : spillCond total ps = false) :
    ∀ fuel : Nat, spillLoop total fuel ps = some ps := by
  intro fuel
  cases fuel <;> simp [spillLoop, hc]

theorem spillLoop_fix_none (total : Int) (ps : List SectionPlan)
    (hc : spillCond total ps = true) (hfix : spillStep total ps = ps) :
    ∀ fuel : Nat, spillLoop total fuel ps = none := by
  intro fuel
  induction fuel with
  | zero => simp [spillLoop, hc]
  | succ n ih => simp [spillLoop, hc, hfix, ih]

/-- Every element of `applyDiff plans total` has length at least 1 when every element of
`plans` does. -/
theorem applyDiff_ge_one (plans : List SectionPlan) (total : Int)
    (hge : ∀ p ∈ plans, 1 ≤ p.length_s) :
    ∀ q ∈ applyDiff plans total, 1 ≤ q.length_s := by
  apply updateLast_forall _ plans hge
  intro p _ _
  show 1 ≤ max 1 (p.length_s + (total - sumLen plans))
  exact le_max_left _ _

/-- C1 (amended): for every non-empty plan list with all lengths at least 1 (the
`conint(ge=1)` bound of the `SectionPlan` model) and positive target, whenever
`_normalize_lengths` terminates its result keeps the section count, has every length at
least 1, sums exactly to the target, and carries the indices 1..N in order. -/
theorem normalize_lengths_correct (plans : List SectionPlan) (total : Int) (fuel : Nat)
    (r : List SectionPlan) (hne : plans ≠ []) (hpos : 1 ≤ total)
    (hge : ∀ p ∈ plans, 1 ≤ p.length_s)
    (hr : normalizeLengths fuel plans total = some r) :
    r.length = plans.length ∧ (∀ p ∈ r, 1 ≤ p.length_s) ∧ sumLen r = total ∧
      r.map (fun p => p.index) = idxFrom 1 r.length := by
  have hlp : 0 < plans.length := List.length_pos.mpr hne
  have hs1 : (1 : Int) ≤ sumLen plans := by
    have h1 := sumLen_ge_length plans hge
    omega
  have hs0 : ¬ sumLen plans = 0 := by omega
  unfold normalizeLengths at hr
  rw [if_neg hne, if_neg hs0] at hr
  obtain ⟨r0, hr0, hrr⟩ := Option.map_eq_some'.mp hr
  subst hrr
  have hps1len : (applyDiff plans total).length = plans.length := length_updateLast _ plans
  have hps1ge : ∀ q ∈ applyDiff plans total, 1 ≤ q.length_s := applyDiff_ge_one plans total hge
  have hridx : (reindexFrom 1 r0).map (fun p => p.index) = idxFrom 1 r0.length :=
    reindexFrom_map_index 1 r0
  have hrlen : (reindexFrom 1 r0).length = r0.length := length_reindexFrom 1 r0
  have hrge : (∀ p ∈ r0, 1 ≤ p.length_s) → ∀ q ∈ reindexFrom 1 r0, 1 ≤ q.length_s := by
    intro h
    exact reindexFrom_forall (fun p i hp => hp) 1 r0 h
  rcases Nat.eq_or_lt_of_le hlp with hone | htwo
  · -- exactly one section: the last-section correction alone lands on the target
    obtain ⟨p, hp⟩ := List.length_eq_one.mp hone.symm
    subst hp
    have hsump : sumLen (applyDiff [p] total) = total := by
      show max 1 (p.length_s + (total - sumLen [p])) + 0 = total
      have : p.length_s + (total - sumLen [p]) = total := by
        simp only [sumLen]
        ring
      rw [this]
      omega
    have hcond : spillCond total (applyDiff [p] total) = false := by
      simp [spillCond, hsump]
    rw [spillLoop_exit total _ hcond fuel] at hr0
    injection hr0 with hr0
    subst hr0
    refine ⟨by rw [hrlen, hps1len], hrge hps1ge, ?_, by rw [hridx, hrlen]⟩
    rw [sumLen_reindexFrom, hsump]
  · -- at least two sections: run the loop invariant to the exit condition
    have hps1sum : total ≤ sumLen (applyDiff plans total) := by
      have := sumLen_updateLast_adj_ge (total - sumLen plans) plans hne
      simp only [applyDiff]
      omega
    obtain ⟨hl0, hg0, hs0', hc0⟩ :=
      spillLoop_some_inv total fuel (applyDiff plans total) r0 hps1ge hps1sum hr0
    have hr0len : r0.length = plans.length := by rw [hl0, hps1len]
    have hsum0 : sumLen r0 = total := by
      have hnotlt : ¬ (total < sumLen r0 ∧ 1 < r0.length) := by
        intro hcontra
        have : spillCond total r0 = true := by
          simp [spillCond, hcontra.1, hcontra.2]
        rw [this] at hc0
        exact Bool.noConfusion hc0
      have : ¬ total < sumLen r0 := fun hlt => hnotlt ⟨hlt, by omega⟩
      omega
    refine ⟨by rw [hrlen, hr0len], hrge hg0, ?_, by rw [hridx, hrlen]⟩
    rw [sumLen_reindexFrom, hsum0]

/-! ### Concrete inputs for witnesses and counterexamples -/

/-- A two-section plan whose drafted lengths [4, 9] exceed a target of 10: the repair
terminates by trimming the last section to 6. -/
def c1plans : List SectionPlan :=
  [{ index := 7, length_s := 4, title := "Intro", talking_points := ["a"],
     presentation_style := "narrative", web_search := false },
   { index := 2, length_s := 9, title := "Body", talking_points := [],
     presentation_style := "news", web_search := true }]

/-- The normalized form of `c1plans` at target 10. -/
def c1res : List SectionPlan :=
  [{ index := 1, length_s := 4, title := "Intro", talking_points := ["a"],
     presentation_style := "narrative", web_search := false },
   { index := 2, length_s := 6, title := "Body", talking_points := [],
     presentation_style := "news", web_search := true }]

/-- A two-section plan with lengths [3, 4]: at target 3 the spill loop reaches the state
[3, 1] and can make no further progress. -/
def cexPlans : List SectionPlan :=
  [{ index := 1, length_s := 3, title := "A", talking_points := [],
     presentation_style := "", web_search := false },
   { index := 2, length_s := 4, title := "B", talking_points := [],
     presentation_style := "", web_search := false }]

/-- A two-section plan with lengths [5, 5]: at target 2 the spill loop reaches the state
[5, 1] and can make no further progress. -/
def stuckPlans : List SectionPlan :=
  [{ index := 1, length_s := 5, title := "A", talking_points := [],
     presentation_style := "", web_search := false },
   { index := 2, length_s := 5, title := "B", talking_points := [],
     presentation_style := "", web_search := false }]

/-! ### Claim C1 -/

/-- C1 counterexample: with the valid two-section input `cexPlans` (all lengths at least
1) and the positive target 3, `_normalize_lengths` never returns: the loop reaches the
fixpoint [3, 1] whose sum 4 still exceeds 3, every iteration leaves it unchanged
(`take` is 0 because the last length sits at the floor, and the second-to-last update
requires more than two sections), so no amount of fuel produces a result. -/
theorem normalize_lengths_not_total :
    cexPlans ≠ [] ∧ (0 : Int) < 3 ∧
      ¬ ∃ (fuel : Nat) (r : List SectionPlan),
          normalizeLengths fuel cexPlans 3 = some r := by
  refine ⟨by decide, by decide, ?_⟩
  rintro ⟨fuel, r, h⟩
  have heq : normalizeLengths fuel cexPlans 3
      = (spillLoop 3 fuel (applyDiff cexPlans 3)).map (reindexFrom 1) := by
    unfold normalizeLengths
    rw [if_neg (by decide), if_neg (by decide)]
  rw [heq, spillLoop_fix_none 3 _ (by decide) (by decide) fuel] at h
  exact Option.noConfusion h

/-- C1 witness: the amended statement holds at the concrete terminating input
`c1plans` with target 10. -/
theorem normalize_lengths_correct_witness :
    c1res.length = c1plans.length ∧ (∀ p ∈ c1res, 1 ≤ p.length_s) ∧
      sumLen c1res = 10 ∧ c1res.map (fun p => p.index) = idxFrom 1 c1res.length :=
  normalize_lengths_correct c1plans 10 3 c1res (by decide) (by decide) (by decide)
    (by decide)

/-! ### Claim C2 -/

/-- C2: `_normalize_lengths` is not total. On `stuckPlans` (lengths [5, 5], both at
least 1) with target 2 (a target at least the number of sections), the corrected state
[5, 1] satisfies the loop condition and is a fixpoint of the loop body, so the source's
`while` loop runs forever; in the fuel-indexed embedding every fuel bound is exhausted. -/
theorem normalize_lengths_diverges (fuel : Nat) :
    normalizeLengths fuel stuckPlans 2 = none := by
  have heq : normalizeLengths fuel stuckPlans 2
      = (spillLoop 2 fuel (applyDiff stuckPlans 2)).map (reindexFrom 1) := by
    unfold normalizeLengths
    rw [if_neg (by decide), if_neg (by decide)]
  rw [heq, spillLoop_fix_none 2 _ (by decide) (by decide) fuel]
  rfl

/-! ### Claim C8 -/

/-- C8: normalizing a non-empty all-zero-length plan list, for any target, collapses it
to the single full-length section titled "Main" with no talking points (lines 295-299). -/
theorem normalize_all_zero (ps : List SectionPlan) (total : Int) (fuel : Nat)
    (hne : ps ≠ []) (hz : ∀ p ∈ ps, p.length_s = 0) :
    normalizeLengths fuel ps total
      = some [{ index := 1, length_s := total, title := "Main", talking_points := [],
                presentation_style := "explanatory", web_search := false }] := by
  have h0 : sumLen ps = 0 := sumLen_zero ps hz
  unfold normalizeLengths
  rw [if_neg hne, if_pos h0]

/-- C8 witness: a three-section all-zero plan normalizes to one 42-second "Main"
section. -/
theorem normalize_all_zero_witness :
    normalizeLengths 0
      [{ index := 5, length_s := 0, title := "X", talking_points := ["tp"],
         presentation_style := "news", web_search := true },
       { index := 9, length_s := 0, title := "Y", talking_points := [],
         presentation_style := "", web_search := false },
       { index := 1, length_s := 0, title := "Z", talking_points := [],
         presentation_style := "", web_search := false }] 42
      = some [{ index := 1, length_s := 42, title := "Main", talking_points := [],
                presentation_style := "explanatory", web_search := false }] :=
  normalize_all_zero _ 42 0 (by decide) (by decide)

/-! ### Claim C6 -/

/-- C6 counterexample: when the planning generation call returns a plan with zero
sections, `_plan_sections` returns an empty outline — `_normalize_lengths` hands the
empty list back unchanged (line 292-293) and no "Main" section is substituted, so the
outline propagated for target 90 and a one-character cast is empty. -/
theorem plan_sections_empty_cex :
    planSections 0 [] [] 90 [{ m_name := "Host" }] = some [] := rfl

/-- C6 (amended): for every fuel, refined-style list, target and cast, a zero-section
plan passes through `_plan_sections` as an empty outline; the full-duration "Main"
substitution happens only inside normalization when the plan is non-empty with all
lengths zero, never for an empty plan. -/
theorem plan_sections_empty_plan (fuel : Nat) (aiStyles : List PresentationStyle)
    (total : Int) (cast : List Character) :
    planSections fuel [] aiStyles total cast = some [] := rfl

/-! ### Claim C5 -/

/-- C5: style resolution (modelled from spec section 4.2, first tier) with a non-empty
allow-list returns a member of that allow-list; a case-insensitively matching hint
resolves to a matching member, a hint with no match resolves to the allow-list's first
entry; with no allow-list the result is the enum default EXPLANATORY. -/
theorem style_resolution (hint : String) (allow : List PresentationStyle)
    (h : allow ≠ []) :
    resolveStyle hint (some allow) ∈ allow
  ∧ ((∃ st ∈ allow, (styleValue st).toLower = hint.toLower) →
       (styleValue (resolveStyle hint (some allow))).toLower = hint.toLower)
  ∧ ((∀ st ∈ allow, (styleValue st).toLower ≠ hint.toLower) →
       resolveStyle hint (some allow) = allow.headD PresentationStyle.EXPLANATORY)
  ∧ resolveStyle hint none = PresentationStyle.EXPLANATORY := by
  obtain ⟨s, rest, rfl⟩ := List.exists_cons_of_ne_nil h
  have hres : resolveStyle hint (some (s :: rest))
      = ((s :: rest).find? (fun st => decide ((styleValue st).toLower = hint.toLower))).getD s :=
    rfl
  cases hfind : (s :: rest).find? (fun st => decide ((styleValue st).toLower = hint.toLower)) with
  | some st =>
    have hmem : st ∈ s :: rest := List.mem_of_find?_eq_some hfind
    have hp := List.find?_some hfind
    have hpeq : (styleValue st).toLower = hint.toLower := of_decide_eq_true hp
    rw [hres, hfind]
    exact ⟨hmem, fun _ => hpeq, fun hnone => absurd hpeq (hnone st hmem), rfl⟩
  | none =>
    have hall := List.find?_eq_none.mp hfind
    rw [hres, hfind]
    refine ⟨by simp, ?_, fun _ => rfl, rfl⟩
    rintro ⟨st, hst, heq⟩
    exact absurd (decide_eq_true heq) (hall st hst)

/-- C5 witness: with allow-list [NEWS, DEBATE] the hint "DEBATE" resolves inside the
allow-list (to DEBATE, by case-insensitive match), and with no allow-list the default is
EXPLANATORY. -/
theorem style_resolution_witness :
    resolveStyle "DEBATE" (some [PresentationStyle.NEWS, PresentationStyle.DEBATE])
        ∈ [PresentationStyle.NEWS, PresentationStyle.DEBATE]
  ∧ ((∃ st ∈ [PresentationStyle.NEWS, PresentationStyle.DEBATE],
        (styleValue st).toLower = "DEBATE".toLower) →
       (styleValue (resolveStyle "DEBATE"
          (some [PresentationStyle.NEWS, PresentationStyle.DEBATE]))).toLower
         = "DEBATE".toLower)
  ∧ ((∀ st ∈ [PresentationStyle.NEWS, PresentationStyle.DEBATE],
        (styleValue st).toLower ≠ "DEBATE".toLower) →
       resolveStyle "DEBATE" (some [PresentationStyle.NEWS, PresentationStyle.DEBATE])
         = [PresentationStyle.NEWS, PresentationStyle.DEBATE].headD
             PresentationStyle.EXPLANATORY)
  ∧ resolveStyle "DEBATE" none = PresentationStyle.EXPLANATORY :=
  style_resolution "DEBATE" [PresentationStyle.NEWS, PresentationStyle.DEBATE]
    (by decide)

/-! ### Claim C9 -/

/-- C9: with any non-empty cast, the build pipeline fails before any `VoiceLine` is
constructed: `_draft_sections` (line 154) reads `c.name` although `Character` declares
only `m_name`, `_make_voice_lines` fails the same way building `by_name` (line 200),
and even the constructor calls themselves — `VoiceLine(voice_actor=…, text=…)` — would
fail validation because the model's required fields are `m_character` and `m_text`. -/
theorem build_fails_before_any_voice_line (cast : List Character) (h : cast ≠ [])
    (sections : List PySection) :
    (∃ e, speakerNames cast = Except.error e)
  ∧ (∃ e, makeVoiceLines cast sections = Except.error e)
  ∧ (∀ a t : PyVal, ∃ e,
       mkVoiceLine [("voice_actor", a), ("text", t)] = Except.error e) := by
  obtain ⟨c, cs, rfl⟩ := List.exists_cons_of_ne_nil h
  exact ⟨⟨_, rfl⟩, ⟨_, rfl⟩, fun a t => ⟨_, rfl⟩⟩

/-- C9 witness: the failure is concrete for the one-character cast ["Host"] and an empty
section list. -/
theorem build_fails_before_any_voice_line_witness :
    (∃ e, speakerNames [{ m_name := "Host" }] = Except.error e)
  ∧ (∃ e, makeVoiceLines [{ m_name := "Host" }] [] = Except.error e)
  ∧ (∀ a t : PyVal, ∃ e,
       mkVoiceLine [("voice_actor", a), ("text", t)] = Except.error e) :=
  build_fails_before_any_voice_line [{ m_name := "Host" }] (by decide) []

/-! ### Claim C4 -/

/-- A one-character cast for the voice-line claims. -/
def c4cast : List Character := [{ m_name := "Host" }]

/-- One drafted section with a correctly speaker-labelled draft line. -/
def c4sections : List PySection :=
  [{ m_script_text := "Hi there.",
     draft_lines := [{ voice_actor := some "Host", text := "Hi there." }],
     voice_lines := [] }]

/-- C4: evaluating `_make_voice_lines` at a well-formed input — cast ["Host"], one
section with non-empty narration and a matching draft line — raises instead of
producing a non-empty voice-line list: building `by_name` reads the undeclared
attribute `name` on `Character`. -/
theorem make_voice_lines_crashes :
    makeVoiceLines c4cast c4sections
      = Except.error "AttributeError: Character object has no attribute" := rfl

/-! ### Claim C3 -/

/-- The sole speaker of the C3 scenario. -/
def c3host : Character := { m_name := "Host" }

/-- A generator draft whose narration block differs from its single labelled line. -/
def c3draft : SectionDraft :=
  { m_index := 1, m_script_text := "Welcome to the show today.",
    lines := some [{ voice_actor := some "Host", text := "Hi" }] }

/-- The section state after `_draft_sections` applies `c3draft`. -/
def c3sec : PySection :=
  applyDraft { m_script_text := "", draft_lines := [], voice_lines := [] } c3draft

/-- C3 counterexample: `_draft_sections` stores the generator's narration block in
`m_script_text` verbatim (line 191) and `_make_voice_lines` builds the voice lines from
the draft lines independently, so for the drafted section `c3sec` the assembled
(speaker, text) pairs carry the text "Hi" while `m_script_text` is "Welcome to the show
today." — the flattened narration text does not equal the space-joined concatenation of
the section's voice-line texts. -/
theorem script_text_not_joined :
    ∃ pairs, sectionPairs [c3host] [("Host", c3host)] (some c3host) c3sec
        = Except.ok pairs
      ∧ c3sec.m_script_text ≠ joinTexts (pairs.map Prod.snd) :=
  ⟨[(c3host, "Hi")], rfl, by decide⟩

/-- C3 (amended): only in the no-draft sole-speaker path does the flattened narration
text equal the space-joined concatenation of the section's voice-line texts — there the
whole narration becomes the single line; in general `m_script_text` is authored by the
generator draft and is never recomputed from the voice lines. -/
theorem solo_script_text_eq_join (cast : List Character)
    (byName : List (String × Character)) (sc : Character) (s : PySection)
    (hd : s.draft_lines = []) :
    sectionPairs cast byName (some sc) s = Except.ok [(sc, s.m_script_text)]
  ∧ joinTexts ([(sc, s.m_script_text)].map Prod.snd) = s.m_script_text := by
  constructor
  · unfold sectionPairs
    rw [if_neg (by simp [hd])]
  · rfl

/-- C3 witness: the amended statement at a concrete draft-free solo section. -/
theorem solo_script_text_eq_join_witness :
    sectionPairs [c3host] [] (some c3host)
        { m_script_text := "All in one block.", draft_lines := [], voice_lines := [] }
      = Except.ok [(c3host, "All in one block.")]
  ∧ joinTexts ([(c3host, "All in one block.")].map Prod.snd) = "All in one block." :=
  solo_script_text_eq_join [c3host] [] c3host
    { m_script_text := "All in one block.", draft_lines := [], voice_lines := [] } rfl

/-! ### Claim C7 -/

/-- The two-character cast of the spec's end-to-end example. -/
def hostC : Character := { m_name := "Host" }

/-- The second character of the example cast. -/
def guestC : Character := { m_name := "Guest" }

/-- The example narration "Hello there. How are you? I'm fine.". -/
def c7narr : String := "Hello there. How are you? I\x27m fine."

theorem roundRobinFrom_map_snd (cast : List Character) :
    ∀ (sents : List String) (i : Nat),
      (roundRobinFrom cast i sents).map Prod.snd = sents.map addDot := by
  intro sents
  induction sents with
  | nil => intro i; rfl
  | cons s t ih =>
    intro i
    simp [roundRobinFrom, ih (i + 1)]

theorem roundRobinFrom_map_fst (cast : List Character) :
    ∀ (sents : List String) (i : Nat),
      (roundRobinFrom cast i sents).map Prod.fst
        = (List.range sents.length).map
            (fun k => cast.getD ((i + k) % cast.length) { m_name := "" }) := by
  intro sents
  induction sents with
  | nil => intro i; rfl
  | cons s t ih =>
    intro i
    rw [List.length_cons, List.range_succ_eq_map]
    simp only [roundRobinFrom, List.map_cons, List.map_map]
    have hfun : ((fun k => cast.getD ((i + k) % cast.length) { m_name := "" }) ∘ Nat.succ)
        = fun k => cast.getD ((i + 1 + k) % cast.length) { m_name := "" } := by
      funext k
      simp only [Function.comp_apply]
      congr 2
      omega
    rw [hfun, ← ih (i + 1)]
    simp

/-- C7 counterexample: for cast ["Host", "Guest"] and the narration "Hello there. How
are you? I\x27m fine.", the round-robin fallback does not yield 3 lines assigned Host,
Guest, Host — splitting on periods leaves the question mark in place, producing only 2
segments. -/
theorem round_robin_not_three :
    ¬ ((roundRobinPairs [hostC, guestC] c7narr).length = 3
        ∧ (roundRobinPairs [hostC, guestC] c7narr).map Prod.fst
            = [hostC, guestC, hostC]) := by
  intro hcon
  have hval : roundRobinPairs [hostC, guestC] c7narr
      = [(hostC, "Hello there."), (guestC, "How are you? I\x27m fine.")] := rfl
  rw [hval] at hcon
  simp at hcon

/-- C7 (amended): with empty drafts and more than one cast member, the narration is
split on sentence-terminal periods into non-empty trimmed segments (re-suffixed with a
period when missing) and assigned round-robin, segment k to cast member k modulo the
cast size; for cast ["Host", "Guest"] and narration "Hello there. How are you? I\x27m
fine." this yields exactly 2 (speaker, text) pairs, Host then Guest, because the
question mark is not a split point. -/
theorem round_robin_amended :
    (∀ (cast : List Character) (text : String),
        (roundRobinPairs cast text).map Prod.snd = (splitSentences text).map addDot
      ∧ (roundRobinPairs cast text).map Prod.fst
          = (List.range (splitSentences text).length).map
              (fun k => cast.getD (k % cast.length) { m_name := "" }))
  ∧ roundRobinPairs [hostC, guestC] c7narr
      = [(hostC, "Hello there."), (guestC, "How are you? I\x27m fine.")] := by
  constructor
  · intro cast text
    refine ⟨roundRobinFrom_map_snd cast (splitSentences text) 0, ?_⟩
    have h := roundRobinFrom_map_fst cast (splitSentences text) 0
    simpa using h
  · rfl

/-! ### Claim C10 -/

/-- C10: no `BuildRequest` value can ever be constructed. The model declares
`@field_validator("actor_names")` (and the validator body reads "num_actors"), but
neither `actor_names` nor `num_actors` is a declared field; pydantic v2 therefore raises
PydanticUserError while the class body executes, before any input can be validated, so
every construction attempt fails. -/
theorem build_request_never_constructed (kw : List (String × PyVal)) :
    mkBuildRequest kw
      = Except.error
          "PydanticUserError: Decorators defined with incorrect fields: names_match_count" :=
  rfl

end MCCAS
